import Mathlib

/-!
Verification of the pyadb device-session and package-install orchestration
layer (`app.py`).  The Python string operations used by the parser
(`str.strip`, `str.splitlines`, `str.split`, substring membership,
`Path.suffix`) are embedded as executable functions over `List Char`,
and the orchestrator's mutable state (device list, current selection,
temporary extraction directories) as an explicit state record with one
step function per Qt slot.
-/

namespace PyAdb

/-! ### Python string primitives over `List Char` -/

/-- Python `str.isspace` characters relevant here (the whitespace set used
by `str.strip()` and `str.split()` with no separator). -/
def pyIsSpace (c : Char) : Bool :=
  c = ' ' || c = '\t' || c = '\n' || c = '\r' || c = '\x0b' || c = '\x0c'

/-- Python `str.strip()`: drop leading and trailing whitespace. -/
def pyStrip (cs : List Char) : List Char :=
  ((cs.dropWhile pyIsSpace).reverse.dropWhile pyIsSpace).reverse

/-- Split on every `'\n'`; the result always has one more entry than the
number of newlines (an empty string yields `[[]]`). -/
def splitNl : List Char → List (List Char)
  | [] => [[]]
  | c :: rest =>
    if c = '\n' then [] :: splitNl rest
    else
      match splitNl rest with
      | l :: ls => (c :: l) :: ls
      | [] => [[c]]

/-- Python `str.splitlines()` (for `'\n'`-separated text): like `splitNl`
but the empty string gives `[]` and a trailing newline does not produce a
final empty line. -/
def pySplitlines (cs : List Char) : List (List Char) :=
  match cs with
  | [] => []
  | _ =>
    if cs.getLast? = some '\n' then (splitNl cs).dropLast
    else splitNl cs

/-- Worker for `pySplitWs`: `acc` is the word currently being read. -/
def splitWsAux (acc : List Char) : List Char → List (List Char)
  | [] => if acc.isEmpty then [] else [acc]
  | c :: rest =>
    if pyIsSpace c then
      if acc.isEmpty then splitWsAux [] rest
      else acc :: splitWsAux [] rest
    else splitWsAux (acc ++ [c]) rest

/-- Python `str.split()` with no separator: split on whitespace runs,
returning no empty words. -/
def pySplitWs (cs : List Char) : List (List Char) :=
  splitWsAux [] cs

/-- Is `pat` a prefix of `cs`? -/
def isPrefixL : List Char → List Char → Bool
  | [], _ => true
  | _ :: _, [] => false
  | p :: ps, c :: cs => p = c && isPrefixL ps cs

/-- Python `pat in s` substring test. -/
def containsSub (pat : List Char) : List Char → Bool
  | [] => isPrefixL pat []
  | c :: cs => isPrefixL pat (c :: cs) || containsSub pat cs

/-- Newline join of lines, as `'\n'.join` would produce. -/
def joinNl : List (List Char) → List Char
  | [] => []
  | [l] => l
  | l :: ls => l ++ '\n' :: joinNl ls

/-- Lexicographic (code-point) order on char lists: the order Python uses
when comparing strings, hence the order of `sorted` on path strings. -/
def lexLe : List Char → List Char → Bool
  | [], _ => true
  | _ :: _, [] => false
  | a :: as, b :: bs =>
    if a.toNat = b.toNat then lexLe as bs else decide (a.toNat < b.toNat)

/-- Python string comparison `a <= b`, as used by `sorted`. -/
def strLeB (a b : String) : Bool := lexLe a.data b.data

/-- Is `pat` a suffix of `cs`? -/
def isSuffixL (pat cs : List Char) : Bool := isPrefixL pat.reverse cs.reverse

/-- Python `pathlib` `PurePath.name`: the final path component (trailing
separators stripped first). -/
def pyName (cs : List Char) : List Char :=
  (((cs.reverse.dropWhile (· = '/')).takeWhile (· ≠ '/'))).reverse

/-- Python `pathlib` `PurePath.suffix` of a name: the part from the last dot,
empty when the dot is absent, leading, or trailing. -/
def pySuffixOfName (name : List Char) : List Char :=
  let rev := name.reverse
  let ext := rev.takeWhile (· ≠ '.')
  if ext.length = rev.length then []
  else if ext.length = 0 then []
  else if ext.length + 1 = rev.length then []
  else '.' :: ext.reverse

/-- Embeds `Path(p).suffix.lower()` as computed in `install_auto`. -/
def pySuffixLower (p : String) : String :=
  String.mk ((pySuffixOfName (pyName p.data)).map Char.toLower)

/-! ### Output parser (`AdbGui.read_output`, stdout branch) -/

/-- The header marker tested with `"List of devices attached" in out`. -/
def headerMarker : List Char := "List of devices attached".data

/-- Predicate `containsMarker out` embeds the Python membership test
`"List of devices attached" in out`. -/
def containsMarker (out : String) : Bool := containsSub headerMarker out.data

/-- The per-line step of the listing loop: `parts = line.split()`;
a line with at least two tokens contributes `(parts[0], parts[1])`,
all other lines are skipped. -/
def lineDeviceL (l : List Char) : Option (List Char × List Char) :=
  match pySplitWs l with
  | a :: b :: _ => some (a, b)
  | _ => none

/-- Device extraction from a list of lines (the body of the `for` loop). -/
def parseListingLines (lines : List (List Char)) : List (List Char × List Char) :=
  lines.filterMap lineDeviceL

/-- Embeds `out.strip().splitlines()[1:]` followed by the token loop: the device
pairs produced from one stdout chunk recognized as a device listing. -/
def parseDevicesL (cs : List Char) : List (List Char × List Char) :=
  parseListingLines ((pySplitlines (pyStrip cs)).drop 1)

/-- String-level wrapper for `parseDevicesL`. -/
def parseDevices (out : String) : List (String × String) :=
  (parseDevicesL out.data).map fun p => (String.mk p.1, String.mk p.2)

/-! ### Session state and orchestrator operations -/

/-- Styling of a line appended to the GUI log (`append_log`'s `cmd` /
`error` flags select a colour only). -/
inductive LogStyle where
  | plain
  | cmdEcho
  | errStyle
deriving DecidableEq, Repr

/-- The mutable state of `AdbGui` relevant to the claims, plus an explicit
model of which temporary extraction directories exist on disk.
`tempDir`/`liveDirs` name workspaces by creation index; `phase` mirrors
whether the wrapped `QProcess` is running. -/
structure SessionState where
  devices : List (String × String)
  currentDevice : Option String
  tempDir : Option Nat
  liveDirs : List Nat
  nextDir : Nat
  processRunning : Bool
deriving DecidableEq, Repr

/-- The freshly initialized `AdbGui` state. -/
def initState : SessionState :=
  { devices := []
    currentDevice := none
    tempDir := none
    liveDirs := []
    nextDir := 0
    processRunning := false }

/-- The observable result of running one Qt slot: the successor state, the
lines appended to the GUI log with their styling, whether an error-level
event was emitted (an error-styled GUI line or an ERROR CLI-log record),
the argument vector handed to `process.start` if any, and whether an
uncaught Python exception escaped the slot. -/
structure OpResult where
  state : SessionState
  guiLog : List (String × LogStyle)
  errorLogged : Bool
  launched : Option (List String)
  raised : Bool
deriving DecidableEq, Repr

/-- Embeds `" ".join(cmd)`. -/
def joinSp : List String → String
  | [] => ""
  | [x] => x
  | x :: xs => x ++ " " ++ joinSp xs

/-- The argument-vector construction inside `run_adb`: prefix
`["-s", serial]` when `self.current_device` is truthy and the operation is
neither `devices` nor `connect`.  (A selection, when present, is a
non-empty serial; `d ≠ ""` is Python's truthiness test on the string.) -/
def run_adb_cmd (cur : Option String) (args : List String) : List String :=
  match cur, args with
  | some d, a :: rest =>
    if d ≠ "" ∧ a ≠ "devices" ∧ a ≠ "connect" then "-s" :: d :: a :: rest
    else a :: rest
  | _, _ => args

/-- Slot `AdbGui.run_adb`: build the scoped vector, echo it to the GUI log, and
start the external process. -/
def run_adb (s : SessionState) (args : List String) : OpResult :=
  let cmd := run_adb_cmd s.currentDevice args
  { state := { s with processRunning := true }
    guiLog := [("$ adb " ++ joinSp cmd, LogStyle.cmdEcho)]
    errorLogged := false
    launched := some cmd
    raised := false }

/-! ### Archive extraction (`AdbGui.install_bundle`) -/

/-- Does the path match the `rglob` pattern `"*.apk"`?  `pathlib` matches
the final component against the pattern with POSIX (case-sensitive)
`fnmatch` semantics, i.e. the name ends in the literal `".apk"`. -/
def endsWithApk (p : String) : Bool := isSuffixL ".apk".data p.data

instance strLeBDecRel : DecidableRel (fun a b : String => strLeB a b = true) :=
  fun a b => inferInstanceAs (Decidable (strLeB a b = true))

/-- Python `sorted` on a list of path strings (ascending code-point
lexicographic order). -/
def sortedPaths (l : List String) : List String :=
  List.insertionSort (fun a b => strLeB a b = true) l

/-- Embeds `sorted(str(p) for p in self.temp_dir.rglob("*.apk"))`: the matching
paths of the extracted tree, sorted by full path.  `tree` is the list of
full path strings of the files in the workspace after `extractall`. -/
def find_apk_files (tree : List String) : List String :=
  sortedPaths (tree.filter fun p => endsWithApk p)

/-- A bundle archive as seen by `zipfile.ZipFile(...).extractall`: either
structurally corrupt (opening/extracting raises) or a tree of extracted
files, given by their full path strings under the workspace root. -/
inductive Archive where
  | corrupt
  | ok (entries : List String)
deriving DecidableEq, Repr

/-- Slot `AdbGui.install_bundle`: echo `Extracting bundle...`, create a fresh
temporary directory and overwrite `self.temp_dir` with it (the prior
directory is not touched), extract, then either report the empty-plan
error or launch `install-multiple`.  A corrupt archive makes
`zipfile.ZipFile` raise after the directory was created; nothing catches
the exception inside the slot. -/
def install_bundle (s : SessionState) (arch : Archive) : OpResult :=
  let wsId := s.nextDir
  let s1 : SessionState :=
    { s with tempDir := some wsId, liveDirs := s.liveDirs ++ [wsId], nextDir := wsId + 1 }
  let extractLog := ("Extracting bundle...", LogStyle.cmdEcho)
  match arch with
  | .corrupt =>
    { state := s1, guiLog := [extractLog], errorLogged := false,
      launched := none, raised := true }
  | .ok entries =>
    let apk_files := find_apk_files entries
    if apk_files.isEmpty then
      { state := s1
        guiLog := [extractLog, ("ERROR: No APK files found", LogStyle.errStyle)]
        errorLogged := true
        launched := none
        raised := false }
    else
      let r := run_adb s1 (["install-multiple", "-r"] ++ apk_files)
      { r with guiLog := extractLog :: r.guiLog }

/-- Slot `AdbGui.install_auto`: resolve the text-field path; a missing file is
an ERROR log record and an early return; a `.apk` suffix (lower-cased)
launches a single install; `.xapk`/`.apkm` drive `install_bundle`; any
other suffix falls through the `if`/`elif` chain and the slot returns with
no effect at all.  `fsExists` is whether `path.exists()` holds and `arch`
the archive content found at the path. -/
def install_auto (s : SessionState) (pathText : String) (fsExists : Bool)
    (arch : Archive) : OpResult :=
  if fsExists = false then
    { state := s, guiLog := [], errorLogged := true, launched := none, raised := false }
  else
    let sfx := pySuffixLower pathText
    if sfx = ".apk" then run_adb s ["install", "-r", pathText]
    else if sfx = ".xapk" ∨ sfx = ".apkm" then install_bundle s arch
    else { state := s, guiLog := [], errorLogged := false, launched := none, raised := false }

/-! ### Output handling and selection (`read_output`, `on_device_selected`,
`adb_devices`, `on_process_finished`) -/

/-- Slot `AdbGui.read_output` on one ready-read event, given the decoded stdout
and stderr chunks.  A stdout chunk containing the header marker replaces
the device list with the parsed pairs; any other non-empty stdout chunk is
appended stripped with plain styling; a non-empty stderr chunk is always
appended stripped with error styling and is never parsed. -/
def read_output (s : SessionState) (outC errC : String) :
    SessionState × List (String × LogStyle) :=
  let outStep :=
    if outC ≠ "" then
      if containsMarker outC then
        ({ s with devices := parseDevices outC }, ([] : List (String × LogStyle)))
      else (s, [(String.mk (pyStrip outC.data), LogStyle.plain)])
    else (s, [])
  let errLogs :=
    if errC ≠ "" then [(String.mk (pyStrip errC.data), LogStyle.errStyle)] else []
  (outStep.1, outStep.2 ++ errLogs)

/-- Slot `AdbGui.on_device_selected`: with a non-empty selection, set
`current_device` to the first whitespace token of the selected item's
text; with an empty selection (as fired by `devices_list.clear()`), the
`if items:` guard makes the slot a no-op. -/
def on_device_selected (s : SessionState) (selItems : List String) : SessionState :=
  match selItems with
  | [] => s
  | t :: _ =>
    match pySplitWs t.data with
    | w :: _ => { s with currentDevice := some (String.mk w) }
    | [] => s

/-- Slot `AdbGui.adb_devices`: clear the device-list widget (which fires
`itemSelectionChanged` with an empty selection) and run `adb devices`. -/
def adb_devices (s : SessionState) : OpResult :=
  let s1 := on_device_selected { s with devices := [] } []
  run_adb s1 ["devices"]

/-- One complete device-list refresh: the `adb_devices` slot followed by
the listing chunk arriving on stdout. -/
def refreshCycle (s : SessionState) (listing : String) : SessionState :=
  (read_output (adb_devices s).state listing "").1

/-- The observable outcome of `AdbGui.on_process_finished`. -/
structure FinishedResult where
  state : SessionState
  logRecord : String
  raised : Bool
deriving DecidableEq, Repr

/-- Slot `AdbGui.on_process_finished`: emit one CLI-log record and return; the
process is no longer running, nothing is raised, and no other state is
touched. -/
def on_process_finished (s : SessionState) (exitCode : Int) (statusText : String) :
    FinishedResult :=
  { state := { s with processRunning := false }
    logRecord :=
      "ADB process finished: exitCode=" ++ toString exitCode ++ ", status=" ++ statusText
    raised := false }

/-! ### Claim C2: device scoping of the argument vector -/

/-- C2 (confirmed): the built argument vector is prefixed with
`-s <selected serial>` exactly when a device is selected and the operation
is neither `devices` nor `connect`; for those two no prefix is added even
with a selection, and with no selection no prefix is added for any
operation. -/
theorem claim2_device_scoping (d : String) (hd : d ≠ "") (a : String)
    (rest args : List String) :
    run_adb_cmd none args = args ∧
    ((a = "devices" ∨ a = "connect") → run_adb_cmd (some d) (a :: rest) = a :: rest) ∧
    (a ≠ "devices" → a ≠ "connect" →
      run_adb_cmd (some d) (a :: rest) = "-s" :: d :: a :: rest) := by
  refine ⟨?_, ?_, ?_⟩
  · cases args <;> rfl
  · rintro (h | h) <;> subst h <;> simp [run_adb_cmd]
  · intro h1 h2
    simp [run_adb_cmd, hd, h1, h2]

/-- Witness for C2 at concrete inputs. -/
theorem claim2_device_scoping_witness :
    run_adb_cmd none ["install", "-r", "a.apk"] = ["install", "-r", "a.apk"] ∧
    run_adb_cmd (some "XYZ123") ["devices"] = ["devices"] ∧
    run_adb_cmd (some "XYZ123") ["install", "-r", "a.apk"]
      = ["-s", "XYZ123", "install", "-r", "a.apk"] := by
  have h1 := claim2_device_scoping "XYZ123" (by decide) "devices" []
    ["install", "-r", "a.apk"]
  have h2 := claim2_device_scoping "XYZ123" (by decide) "install" ["-r", "a.apk"] []
  exact ⟨h1.1, h1.2.1 (Or.inl rfl), h2.2.2 (by decide) (by decide)⟩

/-! ### Claim C3: workspace lifecycle across bundle installs -/

/-- C3 counterexample: after two successive bundle installs both workspace
directories are still on disk — the first one was never released. -/
theorem claim3_counterexample :
    (install_bundle (install_bundle initState (.ok ["base.apk"])).state
        (.ok ["other.apk"])).state.liveDirs = [0, 1] ∧
    0 ∈ (install_bundle (install_bundle initState (.ok ["base.apk"])).state
        (.ok ["other.apk"])).state.liveDirs := by decide

/-- C3 amended: starting a new bundle install creates a fresh workspace and
overwrites the reference to the prior one without deleting it, whether or
not the new extraction succeeds — every previously created directory stays
on disk. -/
theorem claim3_workspace_accumulation (s : SessionState) (arch : Archive) :
    (install_bundle s arch).state.tempDir = some s.nextDir ∧
    (install_bundle s arch).state.liveDirs = s.liveDirs ++ [s.nextDir] := by
  cases arch with
  | corrupt => exact ⟨rfl, rfl⟩
  | ok entries =>
    by_cases h : (find_apk_files entries).isEmpty <;>
      simp [install_bundle, h, run_adb]

/-! ### Claim C5: selection after a device-list refresh -/

/-- C5 counterexample: after a refresh whose listing no longer contains the
previously selected serial, the selection still holds the stale serial, so
the claimed invariant fails. -/
theorem claim5_counterexample :
    (refreshCycle
        { initState with devices := [("XYZ123", "device")],
                         currentDevice := some "XYZ123" }
        "List of devices attached\nABC456 device\n").devices
      = [("ABC456", "device")] ∧
    (refreshCycle
        { initState with devices := [("XYZ123", "device")],
                         currentDevice := some "XYZ123" }
        "List of devices attached\nABC456 device\n").currentDevice
      = some "XYZ123" ∧
    "XYZ123" ∉
      ((refreshCycle
        { initState with devices := [("XYZ123", "device")],
                         currentDevice := some "XYZ123" }
        "List of devices attached\nABC456 device\n").devices.map Prod.fst) := by
  decide

/-- C5 amended: a completed device-list refresh never clears the
selection: `current_device` is left exactly as it was (the clear-triggered
empty-selection signal is a no-op), while the device set is replaced by
the parsed listing. -/
theorem claim5_selection_persists (s : SessionState) (listing : String)
    (h : containsMarker listing = true) :
    (refreshCycle s listing).currentDevice = s.currentDevice ∧
    (refreshCycle s listing).devices = parseDevices listing := by
  have hne : listing ≠ "" := by
    intro he
    rw [he] at h
    exact absurd h (by decide)
  simp [refreshCycle, read_output, adb_devices, run_adb, on_device_selected, hne, h]

/-- Witness for C5 (amended) at a concrete stale-selection state. -/
theorem claim5_selection_persists_witness :
    (refreshCycle
        { initState with devices := [("XYZ123", "device")],
                         currentDevice := some "XYZ123" }
        "List of devices attached\nABC456 device\n").currentDevice
      = some "XYZ123" ∧
    (refreshCycle
        { initState with devices := [("XYZ123", "device")],
                         currentDevice := some "XYZ123" }
        "List of devices attached\nABC456 device\n").devices
      = [("ABC456", "device")] := by
  have h := claim5_selection_persists
    { initState with devices := [("XYZ123", "device")], currentDevice := some "XYZ123" }
    "List of devices attached\nABC456 device\n" (by decide)
  exact ⟨h.1, by rw [h.2]; decide⟩

/-! ### Claim C6: empty install plan -/

/-- C6 (confirmed): a bundle whose extracted tree holds zero package files
produces an error event, launches no process, leaves nothing raised, and
the just-created workspace directory stays assigned and on disk. -/
theorem claim6_empty_bundle (s : SessionState) (entries : List String)
    (h : find_apk_files entries = []) :
    (install_bundle s (.ok entries)).launched = none ∧
    (install_bundle s (.ok entries)).errorLogged = true ∧
    (install_bundle s (.ok entries)).guiLog =
      [("Extracting bundle...", LogStyle.cmdEcho),
       ("ERROR: No APK files found", LogStyle.errStyle)] ∧
    (install_bundle s (.ok entries)).raised = false ∧
    (install_bundle s (.ok entries)).state.tempDir = some s.nextDir ∧
    s.nextDir ∈ (install_bundle s (.ok entries)).state.liveDirs := by
  simp [install_bundle, h]

/-- Witness for C6 on a tree with no package files. -/
theorem claim6_empty_bundle_witness :
    (install_bundle initState (.ok ["manifest.json", "icon.png"])).launched = none ∧
    (install_bundle initState (.ok ["manifest.json", "icon.png"])).errorLogged = true ∧
    0 ∈ (install_bundle initState (.ok ["manifest.json", "icon.png"])).state.liveDirs := by
  have h := claim6_empty_bundle initState ["manifest.json", "icon.png"] (by decide)
  exact ⟨h.1, h.2.1, h.2.2.2.2.2⟩

/-! ### Claim C7: corrupt bundle archives -/

/-- C7 counterexample: a corrupt archive makes the slot raise (the zip
error escapes uncaught) and no error event of any kind is emitted, against
the claimed structured `ExtractionError{Corrupt}` event. -/
theorem claim7_counterexample :
    (install_bundle initState Archive.corrupt).raised = true ∧
    (install_bundle initState Archive.corrupt).errorLogged = false ∧
    (install_bundle initState Archive.corrupt).guiLog
      = [("Extracting bundle...", LogStyle.cmdEcho)] := by decide

/-- C7 amended: for every corrupt bundle archive the zip-open step raises
an exception that propagates out of the bundle-install routine uncaught;
no structured error event is emitted, no process is launched, and the
freshly created workspace directory stays assigned. -/
theorem claim7_corrupt_bundle (s : SessionState) :
    (install_bundle s Archive.corrupt).raised = true ∧
    (install_bundle s Archive.corrupt).errorLogged = false ∧
    (install_bundle s Archive.corrupt).launched = none ∧
    (install_bundle s Archive.corrupt).state.tempDir = some s.nextDir := by
  exact ⟨rfl, rfl, rfl, rfl⟩

/-! ### Claim C8: non-zero exit codes -/

/-- C8 (confirmed): a process completion with a non-zero exit code raises
nothing out of the handler, is reported as exactly one log record, and
returns the session to idle with every other state field untouched. -/
theorem claim8_nonzero_exit (s : SessionState) (code : Int) (statusText : String)
    (_hnz : code ≠ 0) :
    (on_process_finished s code statusText).raised = false ∧
    (on_process_finished s code statusText).logRecord =
      "ADB process finished: exitCode=" ++ toString code ++ ", status=" ++ statusText ∧
    (on_process_finished s code statusText).state = { s with processRunning := false } := by
  exact ⟨rfl, rfl, rfl⟩

/-- Witness for C8 at exit code 1. -/
theorem claim8_nonzero_exit_witness :
    (on_process_finished initState 1 "NormalExit").raised = false ∧
    (on_process_finished initState 1 "NormalExit").logRecord =
      "ADB process finished: exitCode=" ++ toString (1 : Int) ++ ", status=" ++ "NormalExit" ∧
    (on_process_finished initState 1 "NormalExit").state =
      { initState with processRunning := false } :=
  claim8_nonzero_exit initState 1 "NormalExit" (by decide)

/-! ### Claim C9: stream kind and control decisions -/

/-- C9 counterexample: the same listing text fed on stdout replaces the
device set, while on stderr it is appended as an error-styled line and the
device set is untouched — the stream kind decides whether parsing happens
at all. -/
theorem claim9_counterexample :
    (read_output initState "List of devices attached\nABC456 device\n" "").1.devices
      = [("ABC456", "device")] ∧
    (read_output initState "" "List of devices attached\nABC456 device\n").1.devices
      = [] ∧
    (read_output initState "List of devices attached\nABC456 device\n" "").2 = [] ∧
    (read_output initState "" "List of devices attached\nABC456 device\n").2
      = [("List of devices attached\nABC456 device", LogStyle.errStyle)] := by decide

/-- C9 amended: device-listing recognition is a stdout-only control path;
for text not containing the header marker, the stream it arrives on
affects only the styling of the single appended log line — the state is
unchanged and the appended text identical either way. -/
theorem claim9_styling_only (s : SessionState) (t : String)
    (hne : t ≠ "") (hm : containsMarker t = false) :
    (read_output s t "").1 = s ∧
    (read_output s "" t).1 = s ∧
    (read_output s t "").2 = [(String.mk (pyStrip t.data), LogStyle.plain)] ∧
    (read_output s "" t).2 = [(String.mk (pyStrip t.data), LogStyle.errStyle)] := by
  simp [read_output, hne, hm]

/-- Witness for C9 (amended) on a plain error message. -/
theorem claim9_styling_only_witness :
    (read_output initState "adb: failed to install app.apk\n" "").1 = initState ∧
    (read_output initState "" "adb: failed to install app.apk\n").1 = initState ∧
    (read_output initState "adb: failed to install app.apk\n" "").2
      = [("adb: failed to install app.apk", LogStyle.plain)] ∧
    (read_output initState "" "adb: failed to install app.apk\n").2
      = [("adb: failed to install app.apk", LogStyle.errStyle)] := by
  have h := claim9_styling_only initState "adb: failed to install app.apk\n"
    (by decide) (by decide)
  exact ⟨h.1, h.2.1, by rw [h.2.2.1]; decide, by rw [h.2.2.2]; decide⟩

/-! ### Claim C10: rejected install requests leave everything unchanged -/

/-- C10 (confirmed): an install request whose path is missing on disk, or
whose lower-cased extension is none of `.apk`/`.xapk`/`.apkm`, launches no
process, raises nothing, and leaves the whole session state unchanged; the
missing-path case logs an error while the unrecognized-extension case
produces no error event at all. -/
theorem claim10_install_noop (s : SessionState) (pathText : String)
    (fsExists : Bool) (arch : Archive)
    (h : fsExists = false ∨
      (pySuffixLower pathText ≠ ".apk" ∧ pySuffixLower pathText ≠ ".xapk" ∧
        pySuffixLower pathText ≠ ".apkm")) :
    (install_auto s pathText fsExists arch).state = s ∧
    (install_auto s pathText fsExists arch).launched = none ∧
    (install_auto s pathText fsExists arch).raised = false ∧
    (fsExists = false → (install_auto s pathText fsExists arch).errorLogged = true) ∧
    (fsExists = true → (install_auto s pathText fsExists arch).errorLogged = false ∧
      (install_auto s pathText fsExists arch).guiLog = []) := by
  cases fsExists with
  | false =>
    refine ⟨rfl, rfl, rfl, fun _ => rfl, fun hc => by cases hc⟩
  | true =>
    rcases h with h | ⟨h1, h2, h3⟩
    · cases h
    · refine ⟨?_, ?_, ?_, ?_, ?_⟩ <;> simp [install_auto, h1, h2, h3]

/-- Witness for C10 on an existing file with an unrecognized extension. -/
theorem claim10_install_noop_witness :
    (install_auto initState "bundle.zip" true (.ok [])).state = initState ∧
    (install_auto initState "bundle.zip" true (.ok [])).launched = none ∧
    (install_auto initState "bundle.zip" true (.ok [])).errorLogged = false := by
  have h := claim10_install_noop initState "bundle.zip" true (.ok [])
    (Or.inr ⟨by decide, by decide, by decide⟩)
  exact ⟨h.1, h.2.1, (h.2.2.2.2 rfl).1⟩

/-! ### Claim C4: sorted extraction of package files -/

theorem lexLe_total : ∀ as bs : List Char, lexLe as bs = true ∨ lexLe bs as = true
  | [], _ => Or.inl rfl
  | _ :: _, [] => Or.inr rfl
  | a :: as, b :: bs => by
    by_cases h : a.toNat = b.toNat
    · rcases lexLe_total as bs with h' | h'
      · exact Or.inl (by simp [lexLe, h, h'])
      · exact Or.inr (by simp [lexLe, h.symm, h'])
    · by_cases h2 : a.toNat < b.toNat
      · exact Or.inl (by simp [lexLe, h, h2])
      · refine Or.inr ?_
        have hlt : b.toNat < a.toNat := by omega
        simp [lexLe, Ne.symm h, hlt]

theorem lexLe_trans : ∀ as bs cs : List Char,
    lexLe as bs = true → lexLe bs cs = true → lexLe as cs = true
  | [], _, _ => by intro _ _; rfl
  | _ :: _, [], _ => by intro h _; simp [lexLe] at h
  | _ :: _, _ :: _, [] => by intro _ h; simp [lexLe] at h
  | a :: as, b :: bs, c :: cs => by
    intro h1 h2
    by_cases hab : a.toNat = b.toNat <;> by_cases hbc : b.toNat = c.toNat
    · have h1' : lexLe as bs = true := by simpa [lexLe, hab] using h1
      have h2' : lexLe bs cs = true := by simpa [lexLe, hbc] using h2
      have hac : a.toNat = c.toNat := hab.trans hbc
      simpa [lexLe, hac] using lexLe_trans as bs cs h1' h2'
    · have h2' : b.toNat < c.toNat := by simpa [lexLe, hbc] using h2
      have hac : ¬ a.toNat = c.toNat := by omega
      have : a.toNat < c.toNat := by omega
      simp [lexLe, hac, this]
    · have h1' : a.toNat < b.toNat := by simpa [lexLe, hab] using h1
      have hac : ¬ a.toNat = c.toNat := by omega
      have : a.toNat < c.toNat := by omega
      simp [lexLe, hac, this]
    · have h1' : a.toNat < b.toNat := by simpa [lexLe, hab] using h1
      have h2' : b.toNat < c.toNat := by simpa [lexLe, hbc] using h2
      have hac : ¬ a.toNat = c.toNat := by omega
      have : a.toNat < c.toNat := by omega
      simp [lexLe, hac, this]

instance strLeBTotal : IsTotal String (fun a b => strLeB a b = true) :=
  ⟨fun a b => lexLe_total a.data b.data⟩

instance strLeBTrans : IsTrans String (fun a b => strLeB a b = true) :=
  ⟨fun a b c => lexLe_trans a.data b.data c.data⟩

/-- The extraction contract as the claim words it: package files matched
by extension case-insensitively.  Stated only to compare against the
source-derived `find_apk_files`. -/
def find_apk_files_ci (tree : List String) : List String :=
  sortedPaths (tree.filter fun p => isSuffixL ".apk".data (p.data.map Char.toLower))

/-- C4 counterexample: a file whose extension differs only in case is
required by the claim (case-insensitive match) but missed by the code's
case-sensitive `rglob("*.apk")` pattern under POSIX path semantics. -/
theorem claim4_counterexample :
    find_apk_files ["split/Base.APK"] = [] ∧
    find_apk_files_ci ["split/Base.APK"] = ["split/Base.APK"] := by decide

/-- C4 amended: extraction returns exactly the entries of the extracted
tree whose path ends in `.apk` compared case-sensitively, sorted in
lexicographic (code-point) order of the full path, and that sorted list is
exactly the order of the paths in the `install-multiple` argument
vector. -/
theorem claim4_sorted_extraction (tree : List String) (s : SessionState) :
    List.Sorted (fun a b => strLeB a b = true) (find_apk_files tree) ∧
    (find_apk_files tree).Perm (tree.filter fun p => endsWithApk p) ∧
    (find_apk_files tree ≠ [] →
      (install_bundle s (.ok tree)).launched =
        some (run_adb_cmd s.currentDevice
          ("install-multiple" :: "-r" :: find_apk_files tree))) := by
  refine ⟨List.sorted_insertionSort _ _, List.perm_insertionSort _ _, ?_⟩
  intro h
  have hne : (find_apk_files tree).isEmpty = false := by
    simpa [List.isEmpty_iff] using h
  simp [install_bundle, hne, run_adb]

/-- Witness for C4 at the spec's multi-depth example tree. -/
theorem claim4_sorted_extraction_witness :
    List.Sorted (fun a b => strLeB a b = true)
      (find_apk_files ["b/x.apk", "a/y.apk", "a.apk"]) ∧
    (install_bundle initState (.ok ["b/x.apk", "a/y.apk", "a.apk"])).launched =
      some ["install-multiple", "-r", "a.apk", "a/y.apk", "b/x.apk"] := by
  have h := claim4_sorted_extraction ["b/x.apk", "a/y.apk", "a.apk"] initState
  refine ⟨h.1, ?_⟩
  rw [h.2.2 (by decide)]
  decide

/-! ### Claim C1: device-listing parse -/

/-- Spec-side reading of the claim's words, the lines after the header: the lines of
the stripped chunk strictly after the first line that contains the header
marker.  Stated only to compare against the source-derived
`parseDevicesL`, which instead drops the first line unconditionally. -/
def linesAfterHeader (lines : List (List Char)) : List (List Char) :=
  (lines.dropWhile fun l => !(containsSub headerMarker l)).drop 1

/-- Device extraction from the lines after the header line, per the
claim's words. -/
def parseAfterHeaderL (cs : List Char) : List (List Char × List Char) :=
  parseListingLines (linesAfterHeader (pySplitlines (pyStrip cs)))

/-- C1 counterexample: a chunk that contains the header marker on its
second line (a daemon-startup message precedes it).  The code drops only
the first line and then misparses the header line itself as a device
`("List", "of")`, while the devices read from the lines after the header
are just `("ABC456", "device")`. -/
theorem claim1_counterexample :
    containsMarker
      "* daemon started successfully\nList of devices attached\nABC456 device\n" = true ∧
    parseDevices
      "* daemon started successfully\nList of devices attached\nABC456 device\n"
      = [("List", "of"), ("ABC456", "device")] ∧
    (parseAfterHeaderL
      "* daemon started successfully\nList of devices attached\nABC456 device\n".data).map
        (fun p => (String.mk p.1, String.mk p.2))
      = [("ABC456", "device")] := by decide

/-- An abstract line of a device listing: either a well-formed device line
(serial and state) or a line with fewer than two tokens (a single token,
or blank when the token is empty). -/
inductive ListingLine where
  | dev (serial state : List Char)
  | junk (tok : List Char)
deriving DecidableEq, Repr

/-- Render one abstract line as listing text. -/
def renderLine : ListingLine → List Char
  | .dev a b => a ++ ' ' :: b
  | .junk t => t

/-- The device contributed by an abstract line, if any. -/
def lineDeviceOf : ListingLine → Option (List Char × List Char)
  | .dev a b => some (a, b)
  | .junk _ => none

/-- A whitespace-free non-empty token. -/
def goodTokenB (w : List Char) : Bool :=
  !w.isEmpty && w.all fun c => !(pyIsSpace c)

/-- Well-formedness of an abstract line: device tokens are non-empty and
whitespace-free; a junk token is whitespace-free (possibly empty). -/
def goodLineB : ListingLine → Bool
  | .dev a b => goodTokenB a && goodTokenB b
  | .junk t => t.all fun c => !(pyIsSpace c)

/-- Does the listing avoid ending in a blank line (before any trailing
newlines)? -/
def lastLineOk (ls : List ListingLine) : Bool :=
  match ls.getLast? with
  | none => true
  | some l => !(renderLine l).isEmpty

/-- A device-listing stdout chunk: the header line, the rendered lines,
and `n` trailing blank lines. -/
def renderListing (ls : List ListingLine) (n : Nat) : List Char :=
  joinNl (headerMarker :: ls.map renderLine) ++ List.replicate n '\n'

/-! #### Helper lemmas on the embedded Python string primitives -/

theorem splitWsAux_word : ∀ (w acc rest : List Char),
    (∀ c ∈ w, pyIsSpace c = false) →
    splitWsAux acc (w ++ rest) = splitWsAux (acc ++ w) rest
  | [], acc, rest, _ => by simp
  | c :: w, acc, rest, h => by
    have hc : pyIsSpace c = false := h c (by simp)
    have ih := splitWsAux_word w (acc ++ [c]) rest fun c' hc' => h c' (by simp [hc'])
    simp only [List.cons_append, splitWsAux, hc, Bool.false_eq_true, if_false,
      List.append_eq]
    rw [ih]
    congr 1
    simp

theorem pySplitWs_two_tokens (a b : List Char)
    (ha1 : a ≠ []) (ha2 : ∀ c ∈ a, pyIsSpace c = false)
    (hb1 : b ≠ []) (hb2 : ∀ c ∈ b, pyIsSpace c = false) :
    pySplitWs (a ++ ' ' :: b) = [a, b] := by
  have h1 : pySplitWs (a ++ ' ' :: b) = splitWsAux a (' ' :: b) := by
    simpa [pySplitWs] using splitWsAux_word a [] (' ' :: b) ha2
  have h2 : splitWsAux ([] : List Char) b = splitWsAux b [] := by
    simpa using splitWsAux_word b [] [] hb2
  rw [h1]
  simp only [splitWsAux, show pyIsSpace ' ' = true from rfl, if_true,
    List.isEmpty_eq_true, ha1, if_false, h2]
  simp [splitWsAux, List.isEmpty_eq_true, hb1]

theorem pySplitWs_single (t : List Char) (h : ∀ c ∈ t, pyIsSpace c = false) :
    pySplitWs t = if t.isEmpty then [] else [t] := by
  have h1 : pySplitWs t = splitWsAux t [] := by
    simpa [pySplitWs] using splitWsAux_word t [] [] h
  rw [h1, splitWsAux]

theorem lineDeviceL_renderLine (l : ListingLine) (h : goodLineB l = true) :
    lineDeviceL (renderLine l) = lineDeviceOf l := by
  cases l with
  | dev a b =>
    simp only [goodLineB, goodTokenB, Bool.and_eq_true, Bool.not_eq_true',
      List.isEmpty_eq_false, List.all_eq_true, Bool.not_eq_true] at h
    obtain ⟨⟨ha1, ha2⟩, hb1, hb2⟩ := h
    rw [renderLine, lineDeviceL,
      pySplitWs_two_tokens a b ha1 (fun c hc => ha2 c hc) hb1 (fun c hc => hb2 c hc)]
    rfl
  | junk t =>
    simp only [goodLineB, List.all_eq_true, Bool.not_eq_true', Bool.not_eq_true] at h
    rw [renderLine, lineDeviceL, pySplitWs_single t h]
    by_cases he : t.isEmpty <;> simp [he, lineDeviceOf]

theorem splitNl_no_nl : ∀ l : List Char, '\n' ∉ l → splitNl l = [l]
  | [], _ => rfl
  | c :: t, h => by
    have hc : ¬ c = '\n' := fun e => h (e ▸ List.mem_cons_self c t)
    have ht : '\n' ∉ t := fun m => h (List.mem_cons_of_mem _ m)
    simp [splitNl, hc, splitNl_no_nl t ht]

theorem splitNl_append_nl : ∀ l rest : List Char, '\n' ∉ l →
    splitNl (l ++ '\n' :: rest) = l :: splitNl rest
  | [], rest, _ => by simp [splitNl]
  | c :: t, rest, h => by
    have hc : ¬ c = '\n' := fun e => h (e ▸ List.mem_cons_self c t)
    have ht : '\n' ∉ t := fun m => h (List.mem_cons_of_mem _ m)
    simp [splitNl, hc, splitNl_append_nl t rest ht]

theorem joinNl_cons_cons (l l' : List Char) (ls : List (List Char)) :
    joinNl (l :: l' :: ls) = l ++ '\n' :: joinNl (l' :: ls) := rfl

theorem splitNl_joinNl : ∀ lls : List (List Char), lls ≠ [] →
    (∀ l ∈ lls, '\n' ∉ l) → splitNl (joinNl lls) = lls
  | [], h, _ => absurd rfl h
  | [l], _, h => by simpa [joinNl] using splitNl_no_nl l (h l (by simp))
  | l :: l' :: ls, _, h => by
    have h1 : '\n' ∉ l := h l (by simp)
    have ih := splitNl_joinNl (l' :: ls) (by simp)
      (fun x hx => h x (List.mem_cons_of_mem _ hx))
    rw [joinNl_cons_cons, splitNl_append_nl l _ h1, ih]

theorem head?_joinNl (x : List Char) (lls : List (List Char)) (hx : x ≠ []) :
    (joinNl (x :: lls)).head? = x.head? := by
  cases lls with
  | nil => rfl
  | cons y ys => rw [joinNl_cons_cons]; exact List.head?_append_of_ne_nil x hx

theorem getLast?_joinNl : ∀ (lls : List (List Char)) (l : List Char),
    lls.getLast? = some l → l ≠ [] → (joinNl lls).getLast? = l.getLast?
  | [], _, h, _ => by cases h
  | [l0], l, h, hne => by
    have : l0 = l := by simpa using h
    subst this
    rfl
  | l0 :: l1 :: ls, l, h, hne => by
    have h' : (l1 :: ls).getLast? = some l := by
      simpa [List.getLast?_cons_cons] using h
    have ih := getLast?_joinNl (l1 :: ls) l h' hne
    have hJ : joinNl (l1 :: ls) ≠ [] := by
      intro e
      rw [e] at ih
      exact hne (List.getLast?_eq_none_iff.mp (by simpa using ih.symm))
    rw [joinNl_cons_cons, List.getLast?_append_of_ne_nil _ (by simp),
      show ('\n' :: joinNl (l1 :: ls)) = ['\n'] ++ joinNl (l1 :: ls) from rfl,
      List.getLast?_append_of_ne_nil _ hJ, ih]

theorem dropWhile_replicate_nl : ∀ (n : Nat) (xs : List Char),
    List.dropWhile pyIsSpace (List.replicate n '\n' ++ xs) = List.dropWhile pyIsSpace xs
  | 0, xs => by simp
  | n + 1, xs => by
    simp only [List.replicate_succ, List.cons_append, List.dropWhile_cons,
      show pyIsSpace '\n' = true from rfl, if_true]
    exact dropWhile_replicate_nl n xs

theorem dropWhile_eq_self_of_head (xs : List Char)
    (h : ∀ c, xs.head? = some c → pyIsSpace c = false) :
    List.dropWhile pyIsSpace xs = xs := by
  cases xs with
  | nil => rfl
  | cons c t => simp [List.dropWhile_cons, h c rfl]

theorem renderLine_getLast_nonspace (l : ListingLine) (hg : goodLineB l = true) :
    ∀ c, (renderLine l).getLast? = some c → pyIsSpace c = false := by
  cases l with
  | dev a b =>
    simp only [goodLineB, goodTokenB, Bool.and_eq_true, Bool.not_eq_true',
      List.isEmpty_eq_false, List.all_eq_true, Bool.not_eq_true] at hg
    obtain ⟨⟨_, _⟩, hb1, hb2⟩ := hg
    intro c hc
    rw [renderLine, List.getLast?_append_of_ne_nil _ (by simp),
      show (' ' :: b) = [' '] ++ b from rfl,
      List.getLast?_append_of_ne_nil _ hb1] at hc
    exact hb2 c (List.mem_of_mem_getLast? hc)
  | junk t =>
    simp only [goodLineB, List.all_eq_true, Bool.not_eq_true', Bool.not_eq_true] at hg
    intro c hc
    rw [renderLine] at hc
    exact hg c (List.mem_of_mem_getLast? hc)

theorem renderLine_no_nl (l : ListingLine) (hg : goodLineB l = true) :
    '\n' ∉ renderLine l := by
  cases l with
  | dev a b =>
    simp only [goodLineB, goodTokenB, Bool.and_eq_true, Bool.not_eq_true',
      List.isEmpty_eq_false, List.all_eq_true, Bool.not_eq_true] at hg
    obtain ⟨⟨_, ha2⟩, _, hb2⟩ := hg
    intro hm
    rw [renderLine] at hm
    rcases List.mem_append.mp hm with h | h
    · exact absurd (ha2 _ h) (by decide)
    · rcases List.mem_cons.mp h with h | h
      · exact absurd h (by decide)
      · exact absurd (hb2 _ h) (by decide)
  | junk t =>
    simp only [goodLineB, List.all_eq_true, Bool.not_eq_true', Bool.not_eq_true] at hg
    intro hm
    rw [renderLine] at hm
    exact absurd (hg _ hm) (by decide)

theorem isPrefixL_append_self : ∀ pat rest : List Char,
    isPrefixL pat (pat ++ rest) = true
  | [], _ => rfl
  | p :: ps, rest => by simp [isPrefixL, isPrefixL_append_self ps rest]

theorem containsSub_of_isPrefixL (pat cs : List Char) (h : isPrefixL pat cs = true) :
    containsSub pat cs = true := by
  cases cs with
  | nil => exact h
  | cons c t => simp [containsSub, h]

theorem joinNl_listing_head (ls : List ListingLine) :
    (joinNl (headerMarker :: ls.map renderLine)).head? = some 'L' := by
  rw [head?_joinNl headerMarker _ (by decide)]
  rfl

theorem joinNl_listing_getLast_nonspace (ls : List ListingLine)
    (hg : ∀ l ∈ ls, goodLineB l = true) (hl : lastLineOk ls = true) :
    ∀ c, (joinNl (headerMarker :: ls.map renderLine)).getLast? = some c →
      pyIsSpace c = false := by
  cases hE : ls.getLast? with
  | none =>
    have hnil : ls = [] := List.getLast?_eq_none_iff.mp hE
    subst hnil
    intro c hc
    rw [List.map_nil] at hc
    have h1 : (joinNl [headerMarker]).getLast? = some 'd' := by decide
    rw [h1] at hc
    exact (Option.some.inj hc) ▸ (by decide : pyIsSpace 'd' = false)
  | some lastL =>
    have hlsne : ls ≠ [] := by
      intro e
      rw [e] at hE
      cases hE
    have hgl : goodLineB lastL = true := hg lastL (List.mem_of_mem_getLast? hE)
    have hrne : renderLine lastL ≠ [] := by
      unfold lastLineOk at hl
      rw [hE] at hl
      simpa [List.isEmpty_eq_false] using hl
    have hmne : ls.map renderLine ≠ [] := by simpa using hlsne
    have h2 : (headerMarker :: ls.map renderLine).getLast? = some (renderLine lastL) := by
      have hm : (ls.map renderLine).getLast? = some (renderLine lastL) := by
        rw [List.getLast?_map, hE]
        rfl
      rw [show (headerMarker :: ls.map renderLine)
            = [headerMarker] ++ ls.map renderLine from rfl,
        List.getLast?_append_of_ne_nil _ hmne, hm]
    intro c hc
    rw [getLast?_joinNl _ _ h2 hrne] at hc
    exact renderLine_getLast_nonspace lastL hgl c hc

theorem pyStrip_renderListing (ls : List ListingLine) (n : Nat)
    (hg : ∀ l ∈ ls, goodLineB l = true) (hl : lastLineOk ls = true) :
    pyStrip (renderListing ls n) = joinNl (headerMarker :: ls.map renderLine) := by
  have hhead := joinNl_listing_head ls
  have hJne : joinNl (headerMarker :: ls.map renderLine) ≠ [] := by
    intro e
    rw [e] at hhead
    cases hhead
  have hlastJ := joinNl_listing_getLast_nonspace ls hg hl
  have h1 : List.dropWhile pyIsSpace
      (joinNl (headerMarker :: ls.map renderLine) ++ List.replicate n '\n')
      = joinNl (headerMarker :: ls.map renderLine) ++ List.replicate n '\n' := by
    apply dropWhile_eq_self_of_head
    intro c hc
    rw [List.head?_append_of_ne_nil _ hJne, hhead] at hc
    exact (Option.some.inj hc) ▸ (by decide : pyIsSpace 'L' = false)
  have h3 : List.dropWhile pyIsSpace
      (joinNl (headerMarker :: ls.map renderLine)).reverse
      = (joinNl (headerMarker :: ls.map renderLine)).reverse := by
    apply dropWhile_eq_self_of_head
    intro c hc
    rw [List.head?_reverse] at hc
    exact hlastJ c hc
  show (((joinNl (headerMarker :: ls.map renderLine)
      ++ List.replicate n '\n').dropWhile pyIsSpace).reverse.dropWhile pyIsSpace).reverse
      = joinNl (headerMarker :: ls.map renderLine)
  rw [h1, List.reverse_append, List.reverse_replicate, dropWhile_replicate_nl, h3,
    List.reverse_reverse]

/-- C1 amended: for every chunk that is the header line followed by
rendered listing lines and trailing blank lines, the parse recognizes the
chunk and replaces the device set with exactly the devices of the
well-formed lines, in order, with correct serial/state pairs; lines with
fewer than two tokens and trailing blank lines are skipped without
aborting.  (The unconditional `[1:]` line drop means this holds only for
chunks whose first line is the header — see the counterexample.) -/
theorem claim1_header_first_listing (ls : List ListingLine) (n : Nat)
    (hg : ∀ l ∈ ls, goodLineB l = true) (hl : lastLineOk ls = true) :
    containsMarker (String.mk (renderListing ls n)) = true ∧
    parseDevices (String.mk (renderListing ls n)) =
      (ls.filterMap lineDeviceOf).map (fun p => (String.mk p.1, String.mk p.2)) := by
  constructor
  · show containsSub headerMarker (renderListing ls n) = true
    apply containsSub_of_isPrefixL
    have hsplit : ∃ rest, renderListing ls n = headerMarker ++ rest := by
      cases hm : ls.map renderLine with
      | nil => exact ⟨List.replicate n '\n', by simp [renderListing, hm, joinNl]⟩
      | cons x xs =>
        exact ⟨'\n' :: joinNl (x :: xs) ++ List.replicate n '\n',
          by simp [renderListing, hm, joinNl_cons_cons]⟩
    obtain ⟨rest, hrest⟩ := hsplit
    rw [hrest]
    exact isPrefixL_append_self headerMarker rest
  · show (parseDevicesL (renderListing ls n)).map _ = _
    rw [parseDevicesL, pyStrip_renderListing ls n hg hl]
    have hnl : ∀ l ∈ (headerMarker :: ls.map renderLine), '\n' ∉ l := by
      intro l hl'
      rcases List.mem_cons.mp hl' with rfl | hl'
      · decide
      · obtain ⟨l0, hl0, rfl⟩ := List.mem_map.mp hl'
        exact renderLine_no_nl l0 (hg l0 hl0)
    have hsn : splitNl (joinNl (headerMarker :: ls.map renderLine))
        = headerMarker :: ls.map renderLine :=
      splitNl_joinNl _ (by simp) hnl
    have hJhead := joinNl_listing_head ls
    cases hJ : joinNl (headerMarker :: ls.map renderLine) with
    | nil =>
      rw [hJ] at hJhead
      cases hJhead
    | cons c0 t =>
      have hnotnl : ¬ (c0 :: t).getLast? = some '\n' := by
        intro he
        have := joinNl_listing_getLast_nonspace ls hg hl '\n' (hJ ▸ he)
        exact absurd this (by decide)
      have hps : pySplitlines (c0 :: t) = splitNl (c0 :: t) := by
        simp only [pySplitlines]
        rw [if_neg hnotnl]
      rw [hJ] at hsn
      rw [hps, hsn]
      simp only [List.drop_succ_cons, List.drop_zero]
      rw [parseListingLines, List.filterMap_map]
      exact congrArg _
        (List.filterMap_congr fun l hl' => lineDeviceL_renderLine l (hg l hl'))

/-- Witness for C1 (amended) at the spec's example listing, including a
malformed line and a trailing blank line. -/
theorem claim1_header_first_listing_witness :
    parseDevices "List of devices attached\nXYZ123 device\nbadline\nABC456 offline\n" =
      [("XYZ123", "device"), ("ABC456", "offline")] := by
  have h := claim1_header_first_listing
    [.dev "XYZ123".data "device".data, .junk "badline".data,
     .dev "ABC456".data "offline".data] 1 (by decide) (by decide)
  have he : "List of devices attached\nXYZ123 device\nbadline\nABC456 offline\n" =
      String.mk (renderListing
        [.dev "XYZ123".data "device".data, .junk "badline".data,
         .dev "ABC456".data "offline".data] 1) := by decide
  rw [he, h.2]
  decide

end PyAdb

